import Mathlib

/-!
Verification development for the VoiceNotes repository (src/script.js).

The JavaScript source is shallowly embedded: the IndexedDB-backed
`StorageManager` becomes pure functions over a list of records, the Groq
enrichment calls become functions of an explicit fetch outcome, the
`Timer` and the recording controller become explicit state passing, and
the `Visualizer`'s per-frame numeric code becomes exact rational
arithmetic (JavaScript numbers are modelled by `ℚ`, with a dedicated
`JSNum` type carrying NaN/Infinity where a division by zero can occur).
-/

/-! ## Data model: `NoteRecord` (the object built in `saveRecording`)

Fields mirror the object literal of `VoiceNotesApp.saveRecording`:
`blob`, `title`, `transcript`, `date`, `time`, `duration`, `timestamp`,
plus the auto-increment key `id` that IndexedDB assigns (keyPath `id`). -/

structure NoteRecord where
  id : Nat
  blob : List Nat
  title : String
  transcript : String
  date : String
  time : String
  duration : String
  timestamp : Int
deriving DecidableEq, Repr

/-- The object store `recordings`, keyed by `id`. -/
abbrev Store := List NoteRecord

/-! ## StorageManager -/

/-- Lookup by primary key, as `store.get(id)` inside `updateRecord`. -/
def findRecord (s : Store) (id : Nat) : Option NoteRecord :=
  s.find? (fun r => r.id = id)

/-- `store.put(record)`: replace the stored record whose key matches. -/
def putRecord (s : Store) (r : NoteRecord) : Store :=
  s.map (fun x => if x.id = r.id then r else x)

/-- The partial-field object passed to `StorageManager.updateRecord`
(`Object.assign` merges only the fields that are present). -/
structure RecordUpdates where
  newTitle : Option String
  newTranscript : Option String

/-- `Object.assign(record, updates)` for the fields used in practice. -/
def applyUpdates (r : NoteRecord) (u : RecordUpdates) : NoteRecord :=
  { r with
    title := u.newTitle.getD r.title,
    transcript := u.newTranscript.getD r.transcript }

/-- `StorageManager.updateRecord(id, updates)`: read the record by key;
if present, merge the updates into it, persist the merged record and
resolve with it; otherwise reject with `Record not found`. -/
def updateRecord (s : Store) (id : Nat) (u : RecordUpdates) :
    Except String (NoteRecord × Store) :=
  match findRecord s id with
  | some r =>
      let merged := applyUpdates r u
      Except.ok (merged, putRecord s merged)
  | none => Except.error "Record not found"

/-- `StorageManager.deleteRecord(id)`: `store.delete(id)`. An IndexedDB
delete request succeeds whether or not the key is present, so the model
is total and simply drops any record with the key. -/
def deleteRecord (s : Store) (id : Nat) : Store :=
  s.filter (fun r => r.id ≠ id)

/-- The sort comparator of `getAllRecordings`:
`(a, b) => b.timestamp - a.timestamp` places `a` before `b` exactly when
`b.timestamp ≤ a.timestamp` (JavaScript `Array.prototype.sort` is
stable, as is `List.insertionSort` with this relation). -/
def byNewest (a b : NoteRecord) : Prop :=
  b.timestamp ≤ a.timestamp

instance : DecidableRel byNewest :=
  fun a b => inferInstanceAs (Decidable (b.timestamp ≤ a.timestamp))

instance : IsTotal NoteRecord byNewest :=
  ⟨fun a b => le_total b.timestamp a.timestamp⟩

instance : IsTrans NoteRecord byNewest :=
  ⟨fun _ _ _ hab hbc => le_trans hbc hab⟩

/-- `StorageManager.getAllRecordings()`: `getAll` followed by the stable
sort `results.sort((a, b) => b.timestamp - a.timestamp)`. -/
def getAllRecordings (s : Store) : Store :=
  List.insertionSort byNewest s

/-! ## GroqService and the enrichment pipeline

A network call's possible outcomes: the `fetch` (or the body parse)
throws, the response is non-2xx (`!response.ok` makes the code throw
into its own `catch`), or it succeeds with a parsed JSON body. The
relevant body field may be missing (`undefined`), modelled by `Option`. -/

inductive FetchOutcome (α : Type) where
  | networkError
  | httpError (msg : String)
  | success (body : α)
deriving DecidableEq, Repr

/-- An outcome that is not a successful response. -/
def FetchOutcome.failed {α : Type} : FetchOutcome α → Prop
  | .success _ => False
  | _ => True

/-- `GroqService.transcribeAudio`: on any thrown error (network failure
or non-ok status) the `catch` returns the fallback string
`Transcription failed`; on success it returns `data.text || ''`
(the empty string when the field is absent or empty). -/
def transcribeAudio (out : FetchOutcome (Option String)) : String :=
  match out with
  | .success body =>
      match body with
      | some t => if t = "" then "" else t
      | none => ""
  | _ => "Transcription failed"

/-- `GroqService.generateTitle`: on any thrown error the `catch` returns
`Untitled Note`; on success it returns
`data.choices[0]?.message?.content?.trim() || 'Untitled Note'`. -/
def generateTitle (out : FetchOutcome (Option String)) : String :=
  match out with
  | .success body =>
      match body with
      | some c => if c.trim = "" then "Untitled Note" else c.trim
      | none => "Untitled Note"
  | _ => "Untitled Note"

/-- `VoiceNotesApp.processRecording`: transcribe, generate a title, then
persist both fields with `updateRecord`. The surrounding `try`/`catch`
can only be entered by a failing `updateRecord` (the two service helpers
catch their own errors); the `catch` retries `updateRecord` with the
error-state fields, and a failure of that retry rejects the (detached,
never awaited) promise. -/
def processRecording (s : Store) (recordId : Nat)
    (transcribeOut titleOut : FetchOutcome (Option String)) :
    Except String Store :=
  let transcript := transcribeAudio transcribeOut
  let title := generateTitle titleOut
  match updateRecord s recordId ⟨some title, some transcript⟩ with
  | .ok (_, s') => .ok s'
  | .error _ =>
      match updateRecord s recordId ⟨some "Untitled Note", some "Processing failed"⟩ with
      | .ok (_, s') => .ok s'
      | .error e => .error e

/-! ## Timer -/

/-- The `Timer` class state: `startTime` and `elapsedTime`, both epoch
milliseconds. The display interval is presentation only; the stopwatch
value is determined by these two fields and the current clock. -/
structure Timer where
  startTime : Int
  elapsedTime : Int
deriving DecidableEq, Repr

/-- `Timer.start()`: `this.startTime = Date.now() - this.elapsedTime`. -/
def Timer.start (t : Timer) (now : Int) : Timer :=
  { t with startTime := now - t.elapsedTime }

/-- `Timer.stop()`: `this.elapsedTime = Date.now() - this.startTime`. -/
def Timer.stop (t : Timer) (now : Int) : Timer :=
  { t with elapsedTime := now - t.startTime }

/-- `Timer.reset()`: stop, then `this.elapsedTime = 0`; the stored
`startTime` is untouched and the net effect on the state is only the
zeroed elapsed time. -/
def Timer.reset (t : Timer) : Timer :=
  { t with elapsedTime := 0 }

/-- The elapsed value a running timer reports at clock time `now`
(`Timer.update`: `Date.now() - this.startTime`). -/
def Timer.currentElapsed (t : Timer) (now : Int) : Int :=
  now - t.startTime

/-! ## Recording controller (`VoiceNotesApp`) -/

inductive RecState where
  | IDLE
  | RECORDING
  | PAUSED
deriving DecidableEq, Repr

/-- The controller state relevant to the recording lifecycle: the state
machine tag, the timer, the buffered chunks, whether the visualizer loop
is active, the expanded-menu flag, the `saveOnStop` flag, whether a
`mediaRecorder` object exists, and the persistent store. -/
structure AppState where
  state : RecState
  timer : Timer
  audioChunks : List Nat
  visualizerActive : Bool
  isMenuExpanded : Bool
  saveOnStop : Bool
  hasRecorder : Bool
  store : Store
deriving DecidableEq, Repr

/-- `VoiceNotesApp.cleanup()`: state to IDLE, timer reset, visualizer
stopped, chunk buffer cleared, and the expanded menu closed if open. -/
def cleanup (a : AppState) : AppState :=
  { a with
    state := RecState.IDLE,
    timer := a.timer.reset,
    visualizerActive := false,
    audioChunks := [],
    isMenuExpanded := false }

/-- `VoiceNotesApp.stopRecording(save)`: when a recorder exists and the
state is not IDLE, record the `save` flag and ask the recorder to stop
(its `onstop` handler runs asynchronously later); otherwise run
`cleanup()` directly. -/
def stopRecording (a : AppState) (save : Bool) : AppState :=
  if a.hasRecorder ∧ a.state ≠ RecState.IDLE then
    { a with saveOnStop := save }
  else
    cleanup a

/-- `VoiceNotesApp.togglePause()` at clock time `now`: from RECORDING it
pauses capture, deactivates the visualizer and stops the timer; from
PAUSED it resumes capture, reactivates the visualizer and restarts the
timer; otherwise it does nothing. -/
def togglePause (a : AppState) (now : Int) : AppState :=
  if a.state = RecState.RECORDING then
    { a with
      state := RecState.PAUSED,
      visualizerActive := false,
      timer := a.timer.stop now }
  else if a.state = RecState.PAUSED then
    { a with
      state := RecState.RECORDING,
      visualizerActive := true,
      timer := a.timer.start now }
  else a

/-! ## Visualizer: signal analysis

JavaScript numbers in the band computation are modelled by `JSNum`:
an exact rational, or one of the IEEE special values NaN and ±Infinity
that a division by zero can introduce. -/

inductive JSNum where
  | nan
  | posInf
  | negInf
  | num (q : ℚ)
deriving DecidableEq, Repr

/-- JavaScript division of a `JSNum` by a plain number: `0/0` is NaN,
`x/0` for nonzero finite `x` is a signed Infinity, NaN propagates, and
an Infinity divided by a positive number keeps its sign. -/
def JSNum.divQ : JSNum → ℚ → JSNum
  | .nan, _ => .nan
  | .posInf, c => if c < 0 then .negInf else .posInf
  | .negInf, c => if c < 0 then .posInf else .negInf
  | .num a, c =>
      if c = 0 then
        if a = 0 then .nan else if 0 < a then .posInf else .negInf
      else .num (a / c)

/-- JavaScript subtraction on `JSNum` (NaN propagates; `∞ - ∞` is NaN). -/
def JSNum.sub : JSNum → JSNum → JSNum
  | .nan, _ => .nan
  | _, .nan => .nan
  | .posInf, .posInf => .nan
  | .posInf, _ => .posInf
  | .negInf, .negInf => .nan
  | .negInf, _ => .negInf
  | .num _, .posInf => .negInf
  | .num _, .negInf => .posInf
  | .num a, .num b => .num (a - b)

/-- JavaScript addition on `JSNum` (NaN propagates; `∞ + (-∞)` is NaN). -/
def JSNum.add : JSNum → JSNum → JSNum
  | .nan, _ => .nan
  | _, .nan => .nan
  | .posInf, .negInf => .nan
  | .posInf, _ => .posInf
  | .negInf, .posInf => .nan
  | .negInf, _ => .negInf
  | .num _, .posInf => .posInf
  | .num _, .negInf => .negInf
  | .num a, .num b => .num (a + b)

/-- JavaScript multiplication of a `JSNum` by a plain number
(NaN propagates; `∞ * 0` is NaN). -/
def JSNum.mulQ : JSNum → ℚ → JSNum
  | .nan, _ => .nan
  | .posInf, c => if c = 0 then .nan else if 0 < c then .posInf else .negInf
  | .negInf, c => if c = 0 then .nan else if 0 < c then .negInf else .posInf
  | .num a, c => .num (a * c)

/-- Sum of `f i` for `i` in the half-open range `[lo, hi)`, as the
`for` loops of `analyzeAudio` compute it. -/
def sumRange (f : Nat → ℚ) (lo hi : Nat) : ℚ :=
  ((List.range' lo (hi - lo)).map f).sum

/-- The three exponentially smoothed band values
(`this.smoothedBands`). -/
structure BandState where
  low : JSNum
  mid : JSNum
  high : JSNum
deriving DecidableEq, Repr

/-- One band's smoothing step:
`diff = freqBands[i] - smoothedBands[i]; smoothedBands[i] += diff * 0.3`. -/
def smoothBand (s fb : JSNum) : JSNum :=
  s.add ((fb.sub s).mulQ (3/10))

/-- The values `analyzeAudio` computes from the frequency data: the raw
per-band energies written to `this.freqBands` and the updated
`this.smoothedBands`. (The RMS that `analyzeAudio` also returns is taken
as an abstract per-frame input by the envelope model below, since the
claims constrain only its range.) -/
structure AnalyzeResult where
  freqLow : JSNum
  freqMid : JSNum
  freqHigh : JSNum
  smoothedAfter : BandState
deriving DecidableEq, Repr

/-- The band part of `Visualizer.analyzeAudio`: band boundaries
`lowEnd = floor(bufferLength * 0.1)` and `midEnd = floor(bufferLength * 0.4)`,
per-band sums over the frequency bins, then
`freqBands[i] = (sum / binCount) / 255` with JavaScript division
semantics, followed by the smoothing step on each band. -/
def analyzeBands (bufferLength : Nat) (freqData : Nat → ℚ)
    (smoothed : BandState) : AnalyzeResult :=
  let lowEnd := bufferLength / 10
  let midEnd := bufferLength * 4 / 10
  let lowSum := sumRange freqData 0 lowEnd
  let midSum := sumRange freqData lowEnd midEnd
  let highSum := sumRange freqData midEnd bufferLength
  let fbLow := ((JSNum.num lowSum).divQ (lowEnd : ℚ)).divQ 255
  let fbMid := ((JSNum.num midSum).divQ ((midEnd : ℚ) - (lowEnd : ℚ))).divQ 255
  let fbHigh := ((JSNum.num highSum).divQ ((bufferLength : ℚ) - (midEnd : ℚ))).divQ 255
  { freqLow := fbLow
    freqMid := fbMid
    freqHigh := fbHigh
    smoothedAfter :=
      { low := smoothBand smoothed.low fbLow
        mid := smoothBand smoothed.mid fbMid
        high := smoothBand smoothed.high fbHigh } }

/-! ## Visualizer: envelope, peak and amplitude target

The arithmetic of `Visualizer.draw` on the smoothed level, the peak and
the amplitude target never divides by an uncontrolled zero (the division
`smoothedLevel / peakLevel` is guarded by `peakLevel > 0.01`), so it is
modelled directly over `ℚ`. -/

/-- The attack/release envelope step of `Visualizer.draw`:
`k = rms > smoothedLevel ? 0.25 : 0.15;`
`smoothedLevel += (rms - smoothedLevel) * k`. -/
def envStep (rms s : ℚ) : ℚ :=
  let k : ℚ := if s < rms then 1/4 else 3/20
  s + (rms - s) * k

/-- Iterated envelope under a constant per-frame `rms`. -/
def envIter (rms s : ℚ) : Nat → ℚ
  | 0 => s
  | n + 1 => envStep rms (envIter rms s n)

/-- The peak update of `Visualizer.draw`:
`peakLevel = Math.max(peakLevel * 0.99, smoothedLevel)` (with the
already-updated smoothed level). -/
def peakStep (p sNew : ℚ) : ℚ :=
  max (p * (99/100)) sNew

/-- `voiceEnergy = peakLevel > 0.01 ? smoothedLevel / peakLevel : 0`. -/
def voiceEnergy (s p : ℚ) : ℚ :=
  if 1/100 < p then s / p else 0

/-- `targetLevel = baseAmplitude + voiceEnergy * 3.0` with
`baseAmplitude = 0.4`. -/
def targetOf (s p : ℚ) : ℚ :=
  2/5 + voiceEnergy s p * 3

/-- The envelope-and-peak state of the visualizer
(`smoothedLevel`, `peakLevel`), both initialised to 0. -/
structure VizState where
  smoothedLevel : ℚ
  peakLevel : ℚ
deriving DecidableEq, Repr

/-- One frame of `Visualizer.draw` restricted to the envelope/peak
state: the smoothed level moves by the attack/release step toward the
frame's RMS, then the peak decays and clamps up to the new level. -/
def frameStep (st : VizState) (rms : ℚ) : VizState :=
  let sNew := envStep rms st.smoothedLevel
  { smoothedLevel := sNew, peakLevel := peakStep st.peakLevel sNew }

/-- Run the renderer loop from the initial state
(`smoothedLevel = 0`, `peakLevel = 0`) over a list of per-frame RMS
inputs. -/
def runFrames (frames : List ℚ) : VizState :=
  frames.foldl frameStep ⟨0, 0⟩

/-! ## Concrete inputs for witnesses and counterexamples, and the
renderer invariant -/

/-- A concrete input for the C2 witness: two records with distinct
timestamps. -/
def wRecOld : NoteRecord := ⟨1, [], "a", "ta", "d", "t", "00:01", 10⟩

/-- Second record for the C2 witness. -/
def wRecNew : NoteRecord := ⟨2, [], "b", "tb", "d", "t", "00:02", 20⟩

/-- First record of the C2 counterexample: timestamp `5`. -/
def cexRecA : NoteRecord := ⟨1, [], "a", "ta", "d", "t", "00:01", 5⟩

/-- Second record of the C2 counterexample: also timestamp `5`. -/
def cexRecB : NoteRecord := ⟨2, [], "b", "tb", "d", "t", "00:02", 5⟩

/-- A concrete store for the C6 witness. -/
def wStoreC6 : Store := [⟨1, [7], "old", "oldT", "d", "t", "00:05", 50⟩]

/-- A concrete store for the C7 witness: two records. -/
def wStoreC7 : Store :=
  [⟨1, [7], "old", "oldT", "d", "t", "00:05", 50⟩,
   ⟨2, [9], "keep", "keepT", "d", "t", "00:09", 60⟩]

/-- A record still at the processing sentinel, for the C1 witness. -/
def wRecProcessing : NoteRecord :=
  ⟨3, [1, 2], "processing", "processing", "d", "t", "00:07", 70⟩

/-- A concrete recording-state app for the C4 witness. -/
def wApp : AppState :=
  { state := RecState.RECORDING,
    timer := { startTime := 100, elapsedTime := 0 },
    audioChunks := [],
    visualizerActive := true,
    isMenuExpanded := false,
    saveOnStop := false,
    hasRecorder := true,
    store := [] }

/-- An IDLE app for the C9 witness, with stale fields to be cleaned. -/
def wIdleApp : AppState :=
  { state := RecState.IDLE,
    timer := { startTime := 100, elapsedTime := 4321 },
    audioChunks := [9, 9],
    visualizerActive := true,
    isMenuExpanded := true,
    saveOnStop := true,
    hasRecorder := true,
    store := [wRecOld] }

/-- The per-frame state invariant of the renderer loop: the smoothed
level lies in `[0, 1]` and never exceeds the peak, which also lies in
`[0, 1]`. -/
def VizInv (st : VizState) : Prop :=
  0 ≤ st.smoothedLevel ∧ st.smoothedLevel ≤ 1 ∧
  st.smoothedLevel ≤ st.peakLevel ∧ st.peakLevel ≤ 1

/-! ## Helper lemmas about the store operations -/

/-- A record found by key carries that key. -/
theorem findRecord_id_eq {s : Store} {id : Nat} {r : NoteRecord}
    (h : findRecord s id = some r) : r.id = id := by
  have h2 := List.find?_some h
  simpa using h2

/-- A record found by key is in the store. -/
theorem findRecord_mem {s : Store} {id : Nat} {r : NoteRecord}
    (h : findRecord s id = some r) : r ∈ s :=
  List.mem_of_find?_eq_some h

/-- After `put`, looking the key up yields the new record. -/
theorem findRecord_putRecord {s : Store} {id : Nat} {r rNew : NoteRecord}
    (h : findRecord s id = some r) (hid : rNew.id = id) :
    findRecord (putRecord s rNew) id = some rNew := by
  induction s with
  | nil => simp [findRecord] at h
  | cons x xs ih =>
    by_cases hx : x.id = id
    · have hx' : x.id = rNew.id := by rw [hid]; exact hx
      simp only [putRecord, List.map_cons, if_pos hx']
      have : findRecord (rNew :: putRecord xs rNew) id = some rNew := by
        unfold findRecord
        exact List.find?_cons_of_pos _ (by simpa using hid)
      simpa [putRecord] using this
    · have hx' : ¬ x.id = rNew.id := by rw [hid]; exact hx
      have htail : findRecord xs id = some r := by
        unfold findRecord at h
        rwa [List.find?_cons_of_neg _ (by simpa using hx)] at h
      have := ih htail
      simp only [putRecord, List.map_cons, if_neg hx']
      unfold findRecord
      rw [List.find?_cons_of_neg _ (by simpa using hx)]
      simpa [findRecord, putRecord] using this

/-- A member of `putRecord s rNew` is either the new record or an
untouched record of `s` whose key differs. -/
theorem mem_putRecord_elim {s : Store} {rNew x : NoteRecord}
    (hx : x ∈ putRecord s rNew) : x = rNew ∨ (x ∈ s ∧ x.id ≠ rNew.id) := by
  simp only [putRecord, List.mem_map] at hx
  obtain ⟨o, ho, he⟩ := hx
  by_cases h : o.id = rNew.id
  · left
    rw [if_pos h] at he
    exact he.symm
  · right
    rw [if_neg h] at he
    exact ⟨he ▸ ho, he ▸ h⟩

/-- The new record is a member of `putRecord s rNew` whenever some
record with its key was present. -/
theorem self_mem_putRecord {s : Store} {r rNew : NoteRecord}
    (hr : r ∈ s) (hid : r.id = rNew.id) : rNew ∈ putRecord s rNew := by
  simp only [putRecord, List.mem_map]
  exact ⟨r, hr, if_pos hid⟩

/-! ## Claim theorems: NoteStore -/

/-- C2 (amended): `getAllRecordings` returns a permutation of the
stored records sorted by `timestamp` in descending (non-increasing)
order, and the order is strictly descending whenever the stored
timestamps are pairwise distinct. (The order cannot be strict when two
records share a timestamp; see the counterexample.) -/
theorem getAllRecordings_sorted (s : Store) :
    List.Perm (getAllRecordings s) s ∧
    List.Sorted byNewest (getAllRecordings s) ∧
    (s.Pairwise (fun x y => x.timestamp ≠ y.timestamp) →
      List.Chain' (fun a b => b.timestamp < a.timestamp) (getAllRecordings s)) := by
  have hperm : List.Perm (getAllRecordings s) s := List.perm_insertionSort byNewest s
  have hsorted : List.Sorted byNewest (getAllRecordings s) :=
    List.sorted_insertionSort byNewest s
  refine ⟨hperm, hsorted, fun hdist => ?_⟩
  have hdist' : (getAllRecordings s).Pairwise
      (fun x y => x.timestamp ≠ y.timestamp) :=
    (List.Perm.pairwise_iff (fun hab => Ne.symm hab) hperm).mpr hdist
  have hboth := hsorted.and hdist'
  exact (hboth.imp (fun h => lt_of_le_of_ne h.1 h.2.symm)).chain'

/-- C2 witness: on a concrete store with distinct timestamps the sorted
output is strictly descending. -/
theorem getAllRecordings_sorted_witness :
    List.Chain' (fun a b => b.timestamp < a.timestamp)
      (getAllRecordings [wRecOld, wRecNew]) :=
  (getAllRecordings_sorted [wRecOld, wRecNew]).2.2 (by decide)

/-- C2 counterexample: with two records sharing a timestamp the output
of `getAllRecordings` is not strictly descending (both records are
returned, so some adjacent pair has equal timestamps). -/
theorem getAllRecordings_strict_cex :
    ¬ List.Chain' (fun a b => b.timestamp < a.timestamp)
        (getAllRecordings [cexRecA, cexRecB]) := by
  have h1 : getAllRecordings [cexRecA, cexRecB] = [cexRecA, cexRecB] := by rfl
  rw [h1]
  simp [List.chain'_cons, cexRecA, cexRecB]

/-- C6: `updateRecord` fails with the not-found error when the id is
absent; otherwise it reads the stored record, merges the given fields
into it (fields not mentioned by the update — blob, date, time,
duration, timestamp, id — keep their stored values, so the write is a
read-modify-write rather than a blind overwrite), persists the merged
record, and returns it. -/
theorem updateRecord_read_modify_write (s : Store) (id : Nat) (u : RecordUpdates) :
    (findRecord s id = none →
      updateRecord s id u = Except.error "Record not found") ∧
    (∀ r, findRecord s id = some r →
      ∃ r' s', updateRecord s id u = Except.ok (r', s') ∧
        r'.title = u.newTitle.getD r.title ∧
        r'.transcript = u.newTranscript.getD r.transcript ∧
        r'.id = r.id ∧
        r'.blob = r.blob ∧
        r'.date = r.date ∧
        r'.time = r.time ∧
        r'.duration = r.duration ∧
        r'.timestamp = r.timestamp ∧
        findRecord s' id = some r') := by
  constructor
  · intro hnone
    simp [updateRecord, hnone]
  · intro r hr
    refine ⟨applyUpdates r u, putRecord s (applyUpdates r u), ?_, rfl, rfl, rfl,
      rfl, rfl, rfl, rfl, rfl, ?_⟩
    · simp [updateRecord, hr]
    · have hid : (applyUpdates r u).id = id := by
        simpa [applyUpdates] using findRecord_id_eq hr
      exact findRecord_putRecord hr hid

/-- C6 witness: on a concrete store, the absent id `2` yields the
not-found error, and updating the present id `1` returns a merged
record that keeps the untouched fields. -/
theorem updateRecord_read_modify_write_witness :
    updateRecord wStoreC6 2 ⟨some "n", none⟩ = Except.error "Record not found" ∧
    ∃ r' s', updateRecord wStoreC6 1 ⟨some "n", none⟩ = Except.ok (r', s') ∧
      r'.title = (some "n").getD "old" ∧
      r'.transcript = (none : Option String).getD "oldT" ∧
      r'.id = 1 ∧ r'.blob = [7] ∧ r'.date = "d" ∧ r'.time = "t" ∧
      r'.duration = "00:05" ∧ r'.timestamp = 50 ∧
      findRecord s' 1 = some r' :=
  ⟨(updateRecord_read_modify_write wStoreC6 2 ⟨some "n", none⟩).1 (by decide),
   (updateRecord_read_modify_write wStoreC6 1 ⟨some "n", none⟩).2
     ⟨1, [7], "old", "oldT", "d", "t", "00:05", 50⟩ (by decide)⟩

/-- C7: updating title and transcript of a present record, then
listing: every listed record with that id shows exactly the new title
and transcript while its id, timestamp, blob, date, time and duration
are those of the old record; the updated record does appear in the
listing; records with any other id are untouched records of the old
store. -/
theorem updateRecord_then_listAll (s : Store) (id : Nat) (r : NoteRecord)
    (tNew trNew : String) (hr : findRecord s id = some r) :
    ∃ s',
      updateRecord s id ⟨some tNew, some trNew⟩ =
        Except.ok ({ r with title := tNew, transcript := trNew }, s') ∧
      (∀ x ∈ getAllRecordings s', x.id = id →
        x.title = tNew ∧ x.transcript = trNew ∧ x.timestamp = r.timestamp ∧
        x.id = r.id ∧ x.blob = r.blob ∧ x.date = r.date ∧ x.time = r.time ∧
        x.duration = r.duration) ∧
      ({ r with title := tNew, transcript := trNew } ∈ getAllRecordings s') ∧
      (∀ x ∈ getAllRecordings s', x.id ≠ id → x ∈ s) := by
  set merged : NoteRecord := { r with title := tNew, transcript := trNew } with hm
  have hmid : merged.id = id := by
    simpa [hm] using findRecord_id_eq hr
  have happ : applyUpdates r ⟨some tNew, some trNew⟩ = merged := by
    simp [applyUpdates, hm, Option.getD]
  refine ⟨putRecord s merged, ?_, ?_, ?_, ?_⟩
  · simp [updateRecord, hr, happ]
  · intro x hx hxid
    have hx' : x ∈ putRecord s merged :=
      (List.Perm.mem_iff (List.perm_insertionSort byNewest _)).mp hx
    rcases mem_putRecord_elim hx' with heq | ⟨_, hne⟩
    · subst heq
      exact ⟨rfl, rfl, rfl, rfl, rfl, rfl, rfl, rfl⟩
    · exact absurd (hxid.trans hmid.symm) hne
  · have : merged ∈ putRecord s merged :=
      self_mem_putRecord (findRecord_mem hr) rfl
    exact (List.Perm.mem_iff (List.perm_insertionSort byNewest _)).mpr this
  · intro x hx hxid
    have hx' : x ∈ putRecord s merged :=
      (List.Perm.mem_iff (List.perm_insertionSort byNewest _)).mp hx
    rcases mem_putRecord_elim hx' with heq | ⟨hmem, _⟩
    · exact absurd (heq ▸ hmid) hxid
    · exact hmem

/-- C7 witness: applying the theorem to the concrete store at id `1`. -/
theorem updateRecord_then_listAll_witness :
    ∃ s',
      updateRecord wStoreC7 1 ⟨some "nt", some "ntr"⟩ =
        Except.ok (⟨1, [7], "nt", "ntr", "d", "t", "00:05", 50⟩, s') ∧
      (∀ x ∈ getAllRecordings s', x.id = 1 →
        x.title = "nt" ∧ x.transcript = "ntr" ∧ x.timestamp = 50 ∧
        x.id = 1 ∧ x.blob = [7] ∧ x.date = "d" ∧ x.time = "t" ∧
        x.duration = "00:05") ∧
      ((⟨1, [7], "nt", "ntr", "d", "t", "00:05", 50⟩ : NoteRecord) ∈
        getAllRecordings s') ∧
      (∀ x ∈ getAllRecordings s', x.id ≠ 1 → x ∈ wStoreC7) :=
  updateRecord_then_listAll wStoreC7 1 ⟨1, [7], "old", "oldT", "d", "t", "00:05", 50⟩
    "nt" "ntr" (by decide)

/-- C8: `deleteRecord` removes every record with the given id (a
subsequent listing excludes the id), a second delete of the same id is
a no-op (the operation is total, so neither call can fail), and records
with any other id are preserved by the call; members of the result were
members of the original store. -/
theorem deleteRecord_removes_idempotent (s : Store) (id : Nat) :
    (∀ x ∈ getAllRecordings (deleteRecord s id), x.id ≠ id) ∧
    deleteRecord (deleteRecord s id) id = deleteRecord s id ∧
    (∀ x ∈ s, x.id ≠ id → x ∈ deleteRecord s id) ∧
    (∀ x ∈ deleteRecord s id, x ∈ s) := by
  refine ⟨?_, ?_, ?_, ?_⟩
  · intro x hx
    have hx' : x ∈ deleteRecord s id :=
      (List.Perm.mem_iff (List.perm_insertionSort byNewest _)).mp hx
    have := (List.mem_filter.mp hx').2
    simpa using this
  · simp only [deleteRecord, List.filter_filter, Bool.and_self]
  · intro x hx hne
    exact List.mem_filter.mpr ⟨hx, by simpa using hne⟩
  · intro x hx
    exact (List.mem_filter.mp hx).1

/-- C8 witness: concrete two-record store, deleting id `1`. -/
theorem deleteRecord_removes_idempotent_witness :
    deleteRecord (deleteRecord wStoreC7 1) 1 = deleteRecord wStoreC7 1 ∧
    ((⟨2, [9], "keep", "keepT", "d", "t", "00:09", 60⟩ : NoteRecord) ∈
      deleteRecord wStoreC7 1) :=
  ⟨(deleteRecord_removes_idempotent wStoreC7 1).2.1,
   (deleteRecord_removes_idempotent wStoreC7 1).2.2.1
     ⟨2, [9], "keep", "keepT", "d", "t", "00:09", 60⟩ (by decide) (by decide)⟩

/-! ## Claim theorems: enrichment pipeline -/

/-- C1: for a saved record (its id is present in the store), when both
external service calls fail the pipeline still completes without an
error (the result is `ok`, so nothing is propagated to the save path,
which in any case never awaits this detached task): the record's
transcript becomes the fallback `Transcription failed`, its title the
fallback `Untitled Note`, and neither field is left at the
`processing` sentinel. -/
theorem processRecording_total_failure (s : Store) (id : Nat) (r : NoteRecord)
    (tOut titOut : FetchOutcome (Option String))
    (hr : findRecord s id = some r)
    (ht : tOut.failed) (hti : titOut.failed) :
    ∃ s', processRecording s id tOut titOut = Except.ok s' ∧
      (∀ x ∈ s', x.id = id →
        x.transcript = "Transcription failed" ∧ x.title = "Untitled Note" ∧
        x.transcript ≠ "processing" ∧ x.title ≠ "processing") ∧
      (∃ x ∈ s', x.id = id) := by
  have htr : transcribeAudio tOut = "Transcription failed" := by
    cases tOut with
    | success body => exact absurd ht (by simp [FetchOutcome.failed])
    | networkError => rfl
    | httpError msg => rfl
  have hti' : generateTitle titOut = "Untitled Note" := by
    cases titOut with
    | success body => exact absurd hti (by simp [FetchOutcome.failed])
    | networkError => rfl
    | httpError msg => rfl
  set merged : NoteRecord :=
    applyUpdates r ⟨some "Untitled Note", some "Transcription failed"⟩ with hm
  have hmid : merged.id = id := by
    simpa [hm, applyUpdates] using findRecord_id_eq hr
  refine ⟨putRecord s merged, ?_, ?_, ?_⟩
  · simp [processRecording, htr, hti', updateRecord, hr, hm]
  · intro x hx hxid
    rcases mem_putRecord_elim hx with heq | ⟨_, hne⟩
    · subst heq
      refine ⟨rfl, rfl, ?_, ?_⟩ <;> simp [hm, applyUpdates]
    · exact absurd (hxid.trans hmid.symm) hne
  · exact ⟨merged, self_mem_putRecord (findRecord_mem hr) rfl, hmid⟩

/-- C1 witness: concrete store and two failed fetches. -/
theorem processRecording_total_failure_witness :
    ∃ s', processRecording [wRecProcessing] 3
        FetchOutcome.networkError (FetchOutcome.httpError "503") = Except.ok s' ∧
      (∀ x ∈ s', x.id = 3 →
        x.transcript = "Transcription failed" ∧ x.title = "Untitled Note" ∧
        x.transcript ≠ "processing" ∧ x.title ≠ "processing") ∧
      (∃ x ∈ s', x.id = 3) :=
  processRecording_total_failure [wRecProcessing] 3 wRecProcessing
    FetchOutcome.networkError (FetchOutcome.httpError "503")
    (by decide) trivial trivial

/-! ## Claim theorems: timer and recording controller -/

/-- C4: record for `T1` ms, pause, wait `W` ms, resume, record for `T2`
ms, stop. The pause stores exactly the elapsed `T1`; the resume restarts
from that stored value (not from zero); and the duration reported at the
final stop is `T1 + T2`, with the pause duration `W` absent from the
result. -/
theorem timer_pause_resume_duration (a : AppState) (t0 T1 W T2 : Int)
    (hrec : a.state = RecState.RECORDING)
    (hstart : a.timer.startTime = t0) :
    (togglePause a (t0 + T1)).timer.elapsedTime = T1 ∧
    (togglePause (togglePause a (t0 + T1)) (t0 + T1 + W)).timer.elapsedTime = T1 ∧
    Timer.currentElapsed
      (togglePause (togglePause a (t0 + T1)) (t0 + T1 + W)).timer
      (t0 + T1 + W + T2) = T1 + T2 ∧
    (Timer.stop
      (togglePause (togglePause a (t0 + T1)) (t0 + T1 + W)).timer
      (t0 + T1 + W + T2)).elapsedTime = T1 + T2 := by
  have h1 : togglePause a (t0 + T1) =
      { a with
        state := RecState.PAUSED,
        visualizerActive := false,
        timer := a.timer.stop (t0 + T1) } := by
    simp [togglePause, hrec]
  have h2 : togglePause (togglePause a (t0 + T1)) (t0 + T1 + W) =
      { a with
        state := RecState.RECORDING,
        visualizerActive := true,
        timer := (a.timer.stop (t0 + T1)).start (t0 + T1 + W) } := by
    rw [h1]
    simp [togglePause]
  rw [h2, h1]
  simp [Timer.stop, Timer.start, Timer.currentElapsed, hstart]
  ring

/-- C4 witness: `T1 = 1000`, a pause of `50000`, `T2 = 2345`; the
reported duration is `3345`, unaffected by the pause length. -/
theorem timer_pause_resume_duration_witness :
    (togglePause wApp (100 + 1000)).timer.elapsedTime = 1000 ∧
    (togglePause (togglePause wApp (100 + 1000)) (100 + 1000 + 50000)).timer.elapsedTime = 1000 ∧
    Timer.currentElapsed
      (togglePause (togglePause wApp (100 + 1000)) (100 + 1000 + 50000)).timer
      (100 + 1000 + 50000 + 2345) = 1000 + 2345 ∧
    (Timer.stop
      (togglePause (togglePause wApp (100 + 1000)) (100 + 1000 + 50000)).timer
      (100 + 1000 + 50000 + 2345)).elapsedTime = 1000 + 2345 :=
  timer_pause_resume_duration wApp 100 1000 50000 2345 rfl rfl

/-- C9: `stopRecording` from the IDLE state only runs the cleanup path:
it creates no record (the store is untouched), leaves the state IDLE,
resets the timer's elapsed value, clears the chunk buffer and
deactivates the visualizer; running `stopRecording` again from the
resulting state yields the identical state, so stop-from-IDLE is
idempotent. -/
theorem stopRecording_idle_idempotent (a : AppState) (save save2 : Bool)
    (h : a.state = RecState.IDLE) :
    stopRecording a save = cleanup a ∧
    (stopRecording a save).store = a.store ∧
    (stopRecording a save).state = RecState.IDLE ∧
    (stopRecording a save).timer.elapsedTime = 0 ∧
    (stopRecording a save).audioChunks = [] ∧
    (stopRecording a save).visualizerActive = false ∧
    stopRecording (stopRecording a save) save2 = stopRecording a save := by
  have hcl : stopRecording a save = cleanup a := by
    simp [stopRecording, h]
  refine ⟨hcl, ?_, ?_, ?_, ?_, ?_, ?_⟩ <;> rw [hcl] <;>
    simp [cleanup, stopRecording, Timer.reset]

/-- C9 witness: the theorem applied to a concrete IDLE state. -/
theorem stopRecording_idle_idempotent_witness :
    stopRecording wIdleApp true = cleanup wIdleApp ∧
    (stopRecording wIdleApp true).store = wIdleApp.store ∧
    (stopRecording wIdleApp true).state = RecState.IDLE ∧
    (stopRecording wIdleApp true).timer.elapsedTime = 0 ∧
    (stopRecording wIdleApp true).audioChunks = [] ∧
    (stopRecording wIdleApp true).visualizerActive = false ∧
    stopRecording (stopRecording wIdleApp true) false = stopRecording wIdleApp true :=
  stopRecording_idle_idempotent wIdleApp true false rfl

/-! ## Claim theorems: signal analyzer (C3) -/

/-- NaN propagates through JavaScript subtraction on the left. -/
theorem JSNum.nan_sub (x : JSNum) : JSNum.sub JSNum.nan x = JSNum.nan := by
  cases x <;> rfl

/-- NaN propagates through scaling. -/
theorem JSNum.nan_mulQ (c : ℚ) : JSNum.mulQ JSNum.nan c = JSNum.nan := rfl

/-- NaN propagates through JavaScript addition on the right. -/
theorem JSNum.add_nan (x : JSNum) : JSNum.add x JSNum.nan = JSNum.nan := by
  cases x <;> rfl

/-- NaN propagates through division by a constant. -/
theorem JSNum.nan_divQ (c : ℚ) : JSNum.divQ JSNum.nan c = JSNum.nan := rfl

/-- A NaN raw band turns the smoothed band into NaN, whatever its
previous value. -/
theorem smoothBand_nan (s : JSNum) : smoothBand s JSNum.nan = JSNum.nan := by
  simp [smoothBand, JSNum.nan_sub, JSNum.nan_mulQ, JSNum.add_nan]

/-- C3 (amended): in a degenerate configuration in which the low band's
bin range is empty (`floor(bufferLength * 0.1) = 0`), the per-frame
analysis does not guard the division by the bin count: the low band's
reported energy is the unguarded `0 / 0`, i.e. NaN, and the NaN
propagates into the smoothed low band — the band is not treated as zero
energy. (In the shipped configuration `fftSize = 256` gives 128 bins,
so every band range is non-empty and the division is well-defined.) -/
theorem analyzeBands_zero_bins_nan (bufferLength : Nat) (freqData : Nat → ℚ)
    (smoothed : BandState) (h : bufferLength / 10 = 0) :
    (analyzeBands bufferLength freqData smoothed).freqLow = JSNum.nan ∧
    (analyzeBands bufferLength freqData smoothed).smoothedAfter.low = JSNum.nan := by
  constructor
  · simp [analyzeBands, h, sumRange, JSNum.divQ]
  · simp [analyzeBands, h, sumRange, JSNum.divQ, smoothBand_nan]

/-- C3 witness: eight bins with nonzero frequency data and an arbitrary
previous smoothed value still produce NaN for the low band. -/
theorem analyzeBands_zero_bins_nan_witness :
    (analyzeBands 8 (fun _ => (200 : ℚ))
        ⟨JSNum.num (1/2), JSNum.num 0, JSNum.num 0⟩).freqLow = JSNum.nan ∧
    (analyzeBands 8 (fun _ => (200 : ℚ))
        ⟨JSNum.num (1/2), JSNum.num 0, JSNum.num 0⟩).smoothedAfter.low = JSNum.nan :=
  analyzeBands_zero_bins_nan 8 (fun _ => (200 : ℚ))
    ⟨JSNum.num (1/2), JSNum.num 0, JSNum.num 0⟩ (by decide)

/-- C3 counterexample: with `bufferLength = 8` (so the low range
`[0, floor(8 * 0.1)) = [0, 0)` holds zero bins) and all-zero data, the
low band energy comes out as NaN — an undefined value — and in
particular not as the zero the claim requires. -/
theorem analyzeBands_zero_bins_cex :
    (analyzeBands 8 (fun _ => 0)
        ⟨JSNum.num 0, JSNum.num 0, JSNum.num 0⟩).freqLow = JSNum.nan ∧
    (analyzeBands 8 (fun _ => 0)
        ⟨JSNum.num 0, JSNum.num 0, JSNum.num 0⟩).freqLow ≠ JSNum.num 0 := by
  constructor <;> decide

/-! ## Claim theorems: envelope dynamics (C5, C10) -/

/-- Below the target, one envelope step rises by a quarter of the gap. -/
theorem envStep_rise_gap {L x : ℚ} (h : x < L) :
    L - envStep L x = (L - x) * (3/4) := by
  simp only [envStep]
  rw [if_pos h]
  ring

/-- Above the target, one envelope step falls by 15 percent of the gap. -/
theorem envStep_fall_gap {L x : ℚ} (h : L < x) :
    envStep L x - L = (x - L) * (17/20) := by
  simp only [envStep]
  rw [if_neg (not_lt.mpr (le_of_lt h))]
  ring

/-- Below the target, one envelope step strictly increases the level. -/
theorem envStep_rise_gt {L x : ℚ} (h : x < L) : x < envStep L x := by
  simp only [envStep]
  rw [if_pos h]
  nlinarith

/-- Rising from `s` toward a constant `L > s`, the remaining gap after
`n` frames is the initial gap scaled by `(3/4)^n`. -/
theorem envIter_rise_gap (L s : ℚ) (h : s < L) :
    ∀ n, L - envIter L s n = (L - s) * (3/4 : ℚ) ^ n := by
  intro n
  induction n with
  | zero => simp [envIter]
  | succ n ih =>
    have hlt : envIter L s n < L := by
      have hpos : 0 < (L - s) * (3/4 : ℚ) ^ n :=
        mul_pos (by linarith) (pow_pos (by norm_num) n)
      linarith
    show L - envStep L (envIter L s n) = (L - s) * (3/4 : ℚ) ^ (n + 1)
    rw [envStep_rise_gap hlt, ih]
    ring

/-- Falling from `s` toward a constant `L < s`, the remaining gap after
`n` frames is the initial gap scaled by `(17/20)^n`. -/
theorem envIter_fall_gap (L s : ℚ) (h : L < s) :
    ∀ n, envIter L s n - L = (s - L) * (17/20 : ℚ) ^ n := by
  intro n
  induction n with
  | zero => simp [envIter]
  | succ n ih =>
    have hgt : L < envIter L s n := by
      have hpos : 0 < (s - L) * (17/20 : ℚ) ^ n :=
        mul_pos (by linarith) (pow_pos (by norm_num) n)
      linarith
    show envStep L (envIter L s n) - L = (s - L) * (17/20 : ℚ) ^ (n + 1)
    rw [envStep_fall_gap hgt, ih]
    ring

/-- C5: under a sustained step of the per-frame RMS up to `a + d`
(`d > 0`) from level `a`, the smoothed level strictly increases every
frame while staying below the new value, converging with per-frame
gap factor `3/4` (attack coefficient `0.25`); a step down by the same
magnitude `d` converges with gap factor `17/20` (release coefficient
`0.15`); for every `n ≥ 1` the rise's remaining error is strictly
smaller than the equal-magnitude fall's, so the rise converges strictly
faster. Moreover the derived amplitude target is monotone along a rise:
one frame with a larger RMS never decreases `targetLevel` (given the
`peakLevel > 0.01` guard holds before and after). -/
theorem envelope_attack_release (a b d : ℚ) (hd : 0 < d) :
    (∀ n, envIter (a + d) a n < envIter (a + d) a (n + 1)) ∧
    (∀ n, envIter (a + d) a n < a + d) ∧
    (∀ n, (a + d) - envIter (a + d) a n = d * (3/4 : ℚ) ^ n) ∧
    (∀ n, envIter (b - d) b n - (b - d) = d * (17/20 : ℚ) ^ n) ∧
    (∀ n, n ≠ 0 →
      (a + d) - envIter (a + d) a n < envIter (b - d) b n - (b - d)) ∧
    (∀ s p rms, 0 ≤ s → s ≤ p → s < rms → 1/100 < p →
      1/100 < peakStep p (envStep rms s) →
      targetOf s p ≤ targetOf (envStep rms s) (peakStep p (envStep rms s))) := by
  have ha : a < a + d := by linarith
  have hb : b - d < b := by linarith
  have hriseGap : ∀ n, (a + d) - envIter (a + d) a n = d * (3/4 : ℚ) ^ n := by
    intro n
    have := envIter_rise_gap (a + d) a ha n
    calc (a + d) - envIter (a + d) a n = ((a + d) - a) * (3/4 : ℚ) ^ n := this
    _ = d * (3/4 : ℚ) ^ n := by ring
  have hfallGap : ∀ n, envIter (b - d) b n - (b - d) = d * (17/20 : ℚ) ^ n := by
    intro n
    have := envIter_fall_gap (b - d) b hb n
    calc envIter (b - d) b n - (b - d) = (b - (b - d)) * (17/20 : ℚ) ^ n := this
    _ = d * (17/20 : ℚ) ^ n := by ring
  have hbelow : ∀ n, envIter (a + d) a n < a + d := by
    intro n
    have hpos : 0 < d * (3/4 : ℚ) ^ n :=
      mul_pos hd (pow_pos (by norm_num) n)
    have := hriseGap n
    linarith
  refine ⟨?_, hbelow, hriseGap, hfallGap, ?_, ?_⟩
  · intro n
    exact envStep_rise_gt (hbelow n)
  · intro n hn
    rw [hriseGap n, hfallGap n]
    have hpow : (3/4 : ℚ) ^ n < (17/20 : ℚ) ^ n :=
      pow_lt_pow_left (by norm_num) (by norm_num) hn
    exact mul_lt_mul_of_pos_left hpow hd
  · intro s p rms hs hsp hsrms hp hp'
    have hp0 : (0 : ℚ) < p := lt_trans (by norm_num) hp
    have hss' : s < envStep rms s := envStep_rise_gt hsrms
    have hkey : s / p ≤ envStep rms s / peakStep p (envStep rms s) := by
      rcases le_or_lt (envStep rms s) (p * (99/100)) with hc | hc
      · have hmax : peakStep p (envStep rms s) = p * (99/100) :=
          max_eq_left hc
        rw [hmax]
        have h0 : (0 : ℚ) < p * (99/100) := by nlinarith
        calc s / p ≤ s / (p * (99/100)) :=
              div_le_div_of_nonneg_left hs h0 (by nlinarith)
        _ ≤ envStep rms s / (p * (99/100)) :=
              (div_le_div_right h0).mpr (le_of_lt hss')
      · have hmax : peakStep p (envStep rms s) = envStep rms s :=
          max_eq_right (le_of_lt hc)
        rw [hmax]
        have hs'pos : 0 < envStep rms s := lt_of_le_of_lt hs hss'
        rw [div_self (ne_of_gt hs'pos)]
        exact (div_le_one hp0).mpr hsp
    simp only [targetOf, voiceEnergy]
    rw [if_pos hp, if_pos hp']
    nlinarith [hkey]

/-- C5 witness: step up from `0` to `1/2` versus step down from `1` to
`1/2`: after one frame the rise is strictly closer to its target; and a
concrete rising frame does not decrease the amplitude target. -/
theorem envelope_attack_release_witness :
    (((0 : ℚ) + 1/2) - envIter ((0 : ℚ) + 1/2) 0 1 <
      envIter ((1 : ℚ) - 1/2) 1 1 - ((1 : ℚ) - 1/2)) ∧
    targetOf (1/10) (2/10) ≤
      targetOf (envStep (1/2) (1/10)) (peakStep (2/10) (envStep (1/2) (1/10))) :=
  ⟨(envelope_attack_release 0 1 (1/2) (by norm_num)).2.2.2.2.1 1 (by norm_num),
   (envelope_attack_release 0 1 (1/2) (by norm_num)).2.2.2.2.2
     (1/10) (2/10) (1/2) (by norm_num) (by norm_num) (by norm_num) (by norm_num)
     (by norm_num [peakStep, envStep])⟩

/-- The envelope step keeps the level inside `[0, 1]` when the level
and the RMS are inside `[0, 1]` (the new level is a convex combination
of the two). -/
theorem envStep_bounds {rms s : ℚ} (h0 : 0 ≤ s) (h1 : s ≤ 1)
    (hr0 : 0 ≤ rms) (hr1 : rms ≤ 1) :
    0 ≤ envStep rms s ∧ envStep rms s ≤ 1 := by
  simp only [envStep]
  split_ifs with h <;> constructor <;> nlinarith

/-- One frame preserves the invariant, for any frame RMS in `[0, 1]`. -/
theorem frameStep_inv {st : VizState} {rms : ℚ} (hinv : VizInv st)
    (hr0 : 0 ≤ rms) (hr1 : rms ≤ 1) : VizInv (frameStep st rms) := by
  obtain ⟨h0, h1, hsp, hp1⟩ := hinv
  have hb := envStep_bounds h0 h1 hr0 hr1
  refine ⟨hb.1, hb.2, ?_, ?_⟩
  · exact le_max_right _ _
  · exact max_le (by nlinarith) hb.2

/-- The invariant holds after folding any frame sequence from an
invariant-satisfying state. -/
theorem foldl_frameStep_inv :
    ∀ (frames : List ℚ) (st : VizState), VizInv st →
      (∀ r ∈ frames, 0 ≤ r ∧ r ≤ 1) →
      VizInv (frames.foldl frameStep st)
  | [], st, hinv, _ => hinv
  | r :: rs, st, hinv, h => by
    have hr := h r (List.mem_cons_self r rs)
    exact foldl_frameStep_inv rs (frameStep st r)
      (frameStep_inv hinv hr.1 hr.2)
      (fun x hx => h x (List.mem_cons_of_mem r hx))

/-- C10: starting from the initial state (`smoothedLevel = 0`,
`peakLevel = 0`) and feeding any sequence of per-frame RMS values in
`[0, 1]`, after the updates the peak dominates the smoothed level, both
lie in `[0, 1]`, the derived voice energy lies in `[0, 1]`, and the
amplitude target lies in `[0.4, 3.4]`. -/
theorem draw_frame_invariant (frames : List ℚ)
    (h : ∀ r ∈ frames, 0 ≤ r ∧ r ≤ 1) :
    (runFrames frames).smoothedLevel ≤ (runFrames frames).peakLevel ∧
    0 ≤ (runFrames frames).smoothedLevel ∧
    (runFrames frames).smoothedLevel ≤ 1 ∧
    0 ≤ (runFrames frames).peakLevel ∧
    (runFrames frames).peakLevel ≤ 1 ∧
    0 ≤ voiceEnergy (runFrames frames).smoothedLevel (runFrames frames).peakLevel ∧
    voiceEnergy (runFrames frames).smoothedLevel (runFrames frames).peakLevel ≤ 1 ∧
    2/5 ≤ targetOf (runFrames frames).smoothedLevel (runFrames frames).peakLevel ∧
    targetOf (runFrames frames).smoothedLevel (runFrames frames).peakLevel ≤ 17/5 := by
  have hinit : VizInv ⟨0, 0⟩ := by
    refine ⟨le_refl 0, by norm_num, le_refl 0, by norm_num⟩
  have hinv : VizInv (runFrames frames) :=
    foldl_frameStep_inv frames ⟨0, 0⟩ hinit h
  obtain ⟨h0, h1, hsp, hp1⟩ := hinv
  have hp0 : 0 ≤ (runFrames frames).peakLevel := le_trans h0 hsp
  have he : 0 ≤ voiceEnergy (runFrames frames).smoothedLevel
        (runFrames frames).peakLevel ∧
      voiceEnergy (runFrames frames).smoothedLevel
        (runFrames frames).peakLevel ≤ 1 := by
    simp only [voiceEnergy]
    split_ifs with hguard
    · have hppos : (0 : ℚ) < (runFrames frames).peakLevel :=
        lt_trans (by norm_num) hguard
      exact ⟨div_nonneg h0 (le_of_lt hppos), (div_le_one hppos).mpr hsp⟩
    · norm_num
  refine ⟨hsp, h0, h1, hp0, hp1, he.1, he.2, ?_, ?_⟩ <;>
    simp only [targetOf] <;> nlinarith [he.1, he.2]

/-- C10 witness: a concrete frame sequence. -/
theorem draw_frame_invariant_witness :
    (runFrames [1/2, 1, 1/4]).smoothedLevel ≤ (runFrames [1/2, 1, 1/4]).peakLevel ∧
    0 ≤ (runFrames [1/2, 1, 1/4]).smoothedLevel ∧
    (runFrames [1/2, 1, 1/4]).smoothedLevel ≤ 1 ∧
    0 ≤ (runFrames [1/2, 1, 1/4]).peakLevel ∧
    (runFrames [1/2, 1, 1/4]).peakLevel ≤ 1 ∧
    0 ≤ voiceEnergy (runFrames [1/2, 1, 1/4]).smoothedLevel
      (runFrames [1/2, 1, 1/4]).peakLevel ∧
    voiceEnergy (runFrames [1/2, 1, 1/4]).smoothedLevel
      (runFrames [1/2, 1, 1/4]).peakLevel ≤ 1 ∧
    2/5 ≤ targetOf (runFrames [1/2, 1, 1/4]).smoothedLevel
      (runFrames [1/2, 1, 1/4]).peakLevel ∧
    targetOf (runFrames [1/2, 1, 1/4]).smoothedLevel
      (runFrames [1/2, 1, 1/4]).peakLevel ≤ 17/5 :=
  draw_frame_invariant [1/2, 1, 1/4] (by norm_num)
